import Mathlib

/-!
Verification of the cosi-driver-sample resource registry.

This file shallowly embeds the in-memory provisioner registry of
`cmd/cosi-driver-sample/provisionerserver.go` (namespace `Registry` below) and the
backend-delegating handler `DriverCreateBucket` of `pkg/driver/provisioner.go`
(namespace `Driver` below), together with the in-repository fake backend client of
`pkg/clients/fake`.

Modelling decisions:
* Go `map[K]V` values are embedded as association lists (`List (K × V)`) with
  first-match lookup; `m[k] = v` is `aset`, `delete(m, k)` is `adel`, and `m[k]`
  with the comma-ok idiom is `alook`.  A Go map never holds duplicate keys; the
  registry invariant (`Wf`) carries the corresponding `NodupKeys` facts.
* A Go `map[string]string` *variable* can be `nil` or a (possibly empty) map, and
  `reflect.DeepEqual` distinguishes the two (maps are deeply equal only if both
  are nil or both non-nil with equal key/value sets).  Parameters are therefore
  `Option Pmap`, and `deepEqual` is the embedding of `reflect.DeepEqual` at that
  type.
* `uuid.New()` returns a fresh, never-before-used identifier; this is embedded by
  a `nextUUID` counter in the server state (each allocation uses the counter and
  increments it).  `uuid.Parse` either fails or yields an identifier; request id
  strings are embedded as `IdString`.
* The sequential semantics of each handler is embedded; the read-lock fast path
  followed by the write-lock re-check collapses to a single lookup in a
  sequential execution.  The Go code mutates a `*bucket` shared by both indices
  `bucketsByName` and `bucketsByUUID`; the value-based embedding replicates a
  mutation of a live bucket record by writing the updated record through both
  indices, exactly as every alias observes it in Go.
-/

namespace CosiSample

/-! ## Association lists: the embedding of Go maps -/

def alook {κ ν : Type} [DecidableEq κ] : List (κ × ν) → κ → Option ν
  | [], _ => none
  | e :: t, k => if e.1 = k then some e.2 else alook t k

/-- Go `m[k] = v`: replace the binding if the key is present, otherwise add it. -/
def aset {κ ν : Type} [DecidableEq κ] : List (κ × ν) → κ → ν → List (κ × ν)
  | [], k, v => [(k, v)]
  | e :: t, k, v => if e.1 = k then (k, v) :: t else e :: aset t k v

/-- Go `delete(m, k)`: remove the binding for the key if present. -/
def adel {κ ν : Type} [DecidableEq κ] : List (κ × ν) → κ → List (κ × ν)
  | [], _ => []
  | e :: t, k => if e.1 = k then t else e :: adel t k

/-- A Go map never binds the same key twice. -/
def NodupKeys {κ ν : Type} (m : List (κ × ν)) : Prop := (m.map Prod.fst).Nodup

/-! ## Go `map[string]string` parameter maps and `reflect.DeepEqual` -/

/-- The bindings of a non-nil Go `map[string]string`. -/
abbrev Pmap := List (String × String)

/-- A Go `map[string]string` variable: `none` is the nil map. -/
abbrev Params := Option Pmap

/-- Every key of `p` is bound to the same value by `q`. -/
def pmapSub (p q : Pmap) : Bool := p.all fun kv => decide (alook p kv.1 = alook q kv.1)

/-- Extensional equality of two non-nil maps: same keys, same values, order irrelevant. -/
def pmapEqual (p q : Pmap) : Bool := pmapSub p q && pmapSub q p

/-- `reflect.DeepEqual` on two `map[string]string` values: maps are deeply equal
only if both are nil or both are non-nil with the same key/value pairs. -/
def deepEqual : Params → Params → Bool
  | none, none => true
  | some p, some q => pmapEqual p q
  | _, _ => false

/-! ## gRPC status errors -/

inductive Code : Type
  | invalidArgument
  | alreadyExists
  | notFound
  | internal
deriving Repr, DecidableEq

/-- A `status.Error(code, message)` value. -/
structure StatusErr : Type where
  code : Code
  message : String
deriving Repr, DecidableEq

/-! ## The registry server of `cmd/cosi-driver-sample/provisionerserver.go` -/

namespace Registry

/-- A generated identifier (`uuid.UUID`); `uuid.New()` is embedded as drawing the
server's `nextUUID` counter, which is what makes every generated identifier
globally unique and never reused. -/
abbrev UUID := Nat

/-- A request-supplied identifier string, which `uuid.Parse` may reject. -/
inductive IdString : Type
  | malformed (s : String)
  | wellFormed (id : UUID)
deriving Repr, DecidableEq

/-- `uuid.Parse`: fails exactly on malformed identifier strings. -/
def uuidParse : IdString → Option UUID
  | .malformed _ => none
  | .wellFormed id => some id

/-- The `account` record of provisionerserver.go. -/
structure Account : Type where
  accountId : UUID
  accountName : String
  accessPolicy : String
  parameters : Params
deriving Repr, DecidableEq

/-- The `bucket` record of provisionerserver.go (locks are concurrency glue and
have no sequential content). -/
structure Bucket : Type where
  bucketId : UUID
  bucketName : String
  parameters : Params
  accountsByName : List (String × Account)
  accountsByUUID : List (UUID × Account)
deriving Repr, DecidableEq

/-- The `provisionerServer` state: the two bucket indices plus the UUID
generator embedded as a counter. -/
structure ServerState : Type where
  bucketsByName : List (String × Bucket)
  bucketsByUUID : List (UUID × Bucket)
  nextUUID : UUID
deriving Repr, DecidableEq

/-- `NewProvisionerServer()`: both indices empty. -/
def NewProvisionerServer : ServerState :=
  { bucketsByName := [], bucketsByUUID := [], nextUUID := 0 }

/-- The protocol carried by a create request; `req.Protocol.GetS3()` is non-nil
exactly when the oneof holds an S3 value. -/
inductive ProtocolType : Type
  | s3
  | azureBlob
  | gcs
deriving Repr, DecidableEq

/-- `req.Protocol.GetS3() == nil`. -/
def ProtocolType.getS3IsNil : ProtocolType → Bool
  | .s3 => false
  | _ => true

structure CreateBucketRequest : Type where
  name : String
  protocol : ProtocolType
  parameters : Params
deriving Repr, DecidableEq

structure CreateBucketResponse : Type where
  bucketId : UUID
deriving Repr, DecidableEq

structure DeleteBucketRequest : Type where
  bucketId : IdString
deriving Repr, DecidableEq

structure DeleteBucketResponse : Type where
deriving Repr, DecidableEq

structure GrantBucketAccessRequest : Type where
  bucketId : IdString
  accountName : String
  accessPolicy : String
  parameters : Params
deriving Repr, DecidableEq

structure GrantBucketAccessResponse : Type where
  accountId : UUID
  credentialsFileContents : String
  credentialsFilePath : String
deriving Repr, DecidableEq

structure RevokeBucketAccessRequest : Type where
  bucketId : IdString
  accountId : IdString
deriving Repr, DecidableEq

structure RevokeBucketAccessResponse : Type where
deriving Repr, DecidableEq

def errOnlyS3 : StatusErr :=
  ⟨Code.invalidArgument, "Only S3 buckets are supported by the provisioner"⟩

def errBucketExists : StatusErr :=
  ⟨Code.alreadyExists, "Bucket already exists with different parameters"⟩

def errInvalidBucketId : StatusErr := ⟨Code.invalidArgument, "Invalid BucketId"⟩

def errInvalidAccountId : StatusErr := ⟨Code.invalidArgument, "Invalid AccountId"⟩

def errNoSuchBucket : StatusErr := ⟨Code.notFound, "No such bucket"⟩

def errAccountParams : StatusErr :=
  ⟨Code.alreadyExists, "Account already exists with different parameters"⟩

def errAccountPolicy : StatusErr :=
  ⟨Code.alreadyExists, "Account already exists with different access policy"⟩

/-- The bucket literal allocated on the slow path of `ProvisionerCreateBucket`. -/
def freshBucket (s : ServerState) (req : CreateBucketRequest) : Bucket :=
  { bucketId := s.nextUUID
    bucketName := req.name
    parameters := req.parameters
    accountsByName := []
    accountsByUUID := [] }

/-- Registering a freshly allocated bucket in both indices
(`s.bucketsByUUID[b.bucketId] = b; s.bucketsByName[b.bucketName] = b`), together
with the UUID generator having emitted one identifier. -/
def insertBucket (s : ServerState) (b : Bucket) : ServerState :=
  { bucketsByUUID := aset s.bucketsByUUID b.bucketId b
    bucketsByName := aset s.bucketsByName b.bucketName b
    nextUUID := s.nextUUID + 1 }

/-- Lines 95-101 of provisionerserver.go: the DeepEqual check performed on the
found-or-created bucket, and the response. -/
def createCheck (b : Bucket) (req : CreateBucketRequest) (s : ServerState) :
    Except StatusErr CreateBucketResponse × ServerState :=
  if deepEqual b.parameters req.parameters then (Except.ok ⟨b.bucketId⟩, s)
  else (Except.error errBucketExists, s)

/-- `ProvisionerCreateBucket`.  Sequentially, the read-locked fast path and the
write-locked double check collapse to one lookup: either the name is present
(the bucket `b` is the existing record and the state is untouched) or it is
absent (a fresh bucket is allocated and registered in both indices).  Either
way the DeepEqual parameter check then runs on `b`. -/
def ProvisionerCreateBucket (s : ServerState) (req : CreateBucketRequest) :
    Except StatusErr CreateBucketResponse × ServerState :=
  if req.protocol.getS3IsNil then (Except.error errOnlyS3, s)
  else
    match alook s.bucketsByName req.name with
    | some b => createCheck b req s
    | none => createCheck (freshBucket s req) req (insertBucket s (freshBucket s req))

/-- `ProvisionerDeleteBucket`: parse the id; if a live bucket has it, remove it
from both indices; always report success. -/
def ProvisionerDeleteBucket (s : ServerState) (req : DeleteBucketRequest) :
    Except StatusErr DeleteBucketResponse × ServerState :=
  match uuidParse req.bucketId with
  | none => (Except.error errInvalidBucketId, s)
  | some bucketId =>
    match alook s.bucketsByUUID bucketId with
    | none => (Except.ok ⟨⟩, s)
    | some b =>
      (Except.ok ⟨⟩,
        { s with
          bucketsByName := adel s.bucketsByName b.bucketName
          bucketsByUUID := adel s.bucketsByUUID b.bucketId })

/-- The account literal allocated on the slow path of
`ProvisionerGrantBucketAccess`. -/
def freshAccount (s : ServerState) (req : GrantBucketAccessRequest) : Account :=
  { accountId := s.nextUUID
    accountName := req.accountName
    accessPolicy := req.accessPolicy
    parameters := req.parameters }

/-- The bucket after `b.accountsByUUID[a.accountId] = a;
b.accountsByName[a.accountName] = a`. -/
def bucketWithAccount (b : Bucket) (a : Account) : Bucket :=
  { b with
    accountsByUUID := aset b.accountsByUUID a.accountId a
    accountsByName := aset b.accountsByName a.accountName a }

/-- In Go the grant handler mutates `*b` in place; both registry indices alias
that record, so the embedding writes the updated record through both. -/
def updateBucket (s : ServerState) (b b' : Bucket) : ServerState :=
  { s with
    bucketsByName := aset s.bucketsByName b.bucketName b'
    bucketsByUUID := aset s.bucketsByUUID b.bucketId b' }

/-- Lines 168-179 of provisionerserver.go: checks performed on the
found-or-created account, and the response. -/
def grantCheck (a : Account) (req : GrantBucketAccessRequest) (s : ServerState) :
    Except StatusErr GrantBucketAccessResponse × ServerState :=
  if ¬ deepEqual a.parameters req.parameters then (Except.error errAccountParams, s)
  else if a.accessPolicy ≠ req.accessPolicy then (Except.error errAccountPolicy, s)
  else
    (Except.ok
      { accountId := a.accountId
        credentialsFileContents := "# Nothing to see here"
        credentialsFilePath := ".aws/credentials" }, s)

/-- `ProvisionerGrantBucketAccess`: parse the id, require a live bucket, then
find-or-create the account under the bucket's own namespace and run the
parameter/policy checks on it. -/
def ProvisionerGrantBucketAccess (s : ServerState) (req : GrantBucketAccessRequest) :
    Except StatusErr GrantBucketAccessResponse × ServerState :=
  match uuidParse req.bucketId with
  | none => (Except.error errInvalidBucketId, s)
  | some id =>
    match alook s.bucketsByUUID id with
    | none => (Except.error errNoSuchBucket, s)
    | some b =>
      match alook b.accountsByName req.accountName with
      | some a => grantCheck a req s
      | none =>
        grantCheck (freshAccount s req) req
          { updateBucket s b (bucketWithAccount b (freshAccount s req)) with
            nextUUID := s.nextUUID + 1 }

/-- `ProvisionerRevokeBucketAccess`: parse both ids, require a live bucket; if
the account is live, remove it from both of the bucket's indices; always
report success otherwise. -/
def ProvisionerRevokeBucketAccess (s : ServerState) (req : RevokeBucketAccessRequest) :
    Except StatusErr RevokeBucketAccessResponse × ServerState :=
  match uuidParse req.bucketId with
  | none => (Except.error errInvalidBucketId, s)
  | some bucketId =>
    match uuidParse req.accountId with
    | none => (Except.error errInvalidAccountId, s)
    | some accountId =>
      match alook s.bucketsByUUID bucketId with
      | none => (Except.error errNoSuchBucket, s)
      | some b =>
        match alook b.accountsByUUID accountId with
        | none => (Except.ok ⟨⟩, s)
        | some a =>
          (Except.ok ⟨⟩,
            updateBucket s b
              { b with
                accountsByName := adel b.accountsByName a.accountName
                accountsByUUID := adel b.accountsByUUID a.accountId })

end Registry

/-! ## The backend-delegating handler of `pkg/driver/provisioner.go`, instantiated
with the in-repository fake backend client of `pkg/clients/fake` (whose
`BucketExists`, `IsBucketEqual` and `CreateBucket` never return an error). -/

namespace Driver

/-- Go `maps.Equal` on two `map[string]string` variables: length/key-value based,
so a nil map and an empty map ARE equal (unlike `reflect.DeepEqual`). -/
def goMapsEqual (p q : Params) : Bool := pmapEqual (p.getD []) (q.getD [])

/-- The fake client's bucket store (`Client.Buckets`): name to the stored
`Bucket.Parameters` map. -/
structure FakeClient : Type where
  buckets : List (String × Params)
deriving Repr, DecidableEq

/-- fake `Client.CreateBucket`. -/
def FakeClient.createBucket (c : FakeClient) (name : String) (ps : Params) : FakeClient :=
  { buckets := aset c.buckets name ps }

/-- fake `Client.BucketExists`. -/
def FakeClient.bucketExists (c : FakeClient) (name : String) : Bool :=
  (alook c.buckets name).isSome

/-- fake `Client.IsBucketEqual`: `maps.Equal(c.Buckets[name].Parameters, parameters)`
(only called on existing buckets; an absent entry reads as a nil map). -/
def FakeClient.isBucketEqual (c : FakeClient) (name : String) (ps : Params) : Bool :=
  goMapsEqual ((alook c.buckets name).getD none) ps

/-- The `config.Config` fields `DriverCreateBucket` reads: the bucket-id override
(empty string means unset) and the injectable `Errors.CreateBucket`. -/
structure DriverConfig : Type where
  overridesBucketID : String
  errorsCreateBucket : Option StatusErr
deriving Repr, DecidableEq

/-- `ProvisionerServer.getName`: when the BucketID override is set it is used as
the name and the second component is `false`; otherwise the request name is used
and the second component is `true`.  The call site binds that component to a
variable named `overridden`. -/
def getName (cfg : DriverConfig) (reqName : String) : String × Bool :=
  if cfg.overridesBucketID ≠ "" then (cfg.overridesBucketID, false)
  else (reqName, true)

structure DriverCreateBucketRequest : Type where
  name : String
  parameters : Params
deriving Repr, DecidableEq

/-- The response; `bucketInfoSet` records whether the `BucketInfo` field was
populated (it is only on the fresh-creation path). -/
structure DriverCreateBucketResponse : Type where
  bucketId : String
  bucketInfoSet : Bool
deriving Repr, DecidableEq

/-- `DriverCreateBucket`: injected error, else existence check; on an existing
bucket either skip validation (when `overridden` is true) or compare parameters
via the client's `IsBucketEqual`; otherwise create the bucket in the backend. -/
def DriverCreateBucket (cfg : DriverConfig) (c : FakeClient)
    (req : DriverCreateBucketRequest) :
    Except StatusErr DriverCreateBucketResponse × FakeClient :=
  let bucketName := (getName cfg req.name).1
  let overridden := (getName cfg req.name).2
  match cfg.errorsCreateBucket with
  | some e => (Except.error e, c)
  | none =>
    if c.bucketExists bucketName then
      if overridden then
        (Except.ok { bucketId := bucketName, bucketInfoSet := false }, c)
      else if c.isBucketEqual bucketName req.parameters then
        (Except.ok { bucketId := bucketName, bucketInfoSet := false }, c)
      else
        (Except.error
          ⟨Code.alreadyExists, "bucket already exists: " ++ bucketName⟩, c)
    else
      (Except.ok { bucketId := bucketName, bucketInfoSet := true },
        c.createBucket bucketName req.parameters)

end Driver

/-! ## Registry well-formedness and reachability -/

namespace Registry

/-- Mutual consistency of one bucket's two account indices, with every account
identifier below the UUID-generator bound. -/
structure BucketWf (bound : UUID) (b : Bucket) : Prop where
  ndName : NodupKeys b.accountsByName
  ndUUID : NodupKeys b.accountsByUUID
  byName : ∀ n a, alook b.accountsByName n = some a →
      a.accountName = n ∧ alook b.accountsByUUID a.accountId = some a ∧ a.accountId < bound
  byUUID : ∀ u a, alook b.accountsByUUID u = some a →
      a.accountId = u ∧ alook b.accountsByName a.accountName = some a

/-- Registry index consistency: the name-keyed and identifier-keyed bucket
indices are duplicate-free and mutually consistent (every entry of one maps
back through the other to the same record), every live bucket identifier is
below the UUID-generator bound, and each live bucket's account indices are
themselves mutually consistent. -/
structure Wf (s : ServerState) : Prop where
  ndName : NodupKeys s.bucketsByName
  ndUUID : NodupKeys s.bucketsByUUID
  byName : ∀ n b, alook s.bucketsByName n = some b →
      b.bucketName = n ∧ alook s.bucketsByUUID b.bucketId = some b ∧ b.bucketId < s.nextUUID
  byUUID : ∀ u b, alook s.bucketsByUUID u = some b →
      b.bucketId = u ∧ alook s.bucketsByName b.bucketName = some b
  accounts : ∀ u b, alook s.bucketsByUUID u = some b → BucketWf s.nextUUID b

/-- One registry transition: some client performs one of the four RPCs with an
arbitrary request. -/
inductive Step : ServerState → ServerState → Prop
  | createBucket (s : ServerState) (req : CreateBucketRequest) :
      Step s (ProvisionerCreateBucket s req).2
  | deleteBucket (s : ServerState) (req : DeleteBucketRequest) :
      Step s (ProvisionerDeleteBucket s req).2
  | grantBucketAccess (s : ServerState) (req : GrantBucketAccessRequest) :
      Step s (ProvisionerGrantBucketAccess s req).2
  | revokeBucketAccess (s : ServerState) (req : RevokeBucketAccessRequest) :
      Step s (ProvisionerRevokeBucketAccess s req).2

/-- States reachable from a freshly constructed server by any RPC sequence. -/
def Reachable (s : ServerState) : Prop :=
  Relation.ReflTransGen Step NewProvisionerServer s

/-- States reachable from `s` by any RPC sequence. -/
def ReachableFrom (s t : ServerState) : Prop := Relation.ReflTransGen Step s t

end Registry

/-! ## Concrete requests, clients and states used to exercise the theorems -/

namespace Registry

def wReqPhotos : CreateBucketRequest :=
  { name := "photos", protocol := ProtocolType.s3, parameters := some [] }

def wReqPhotosEu : CreateBucketRequest :=
  { name := "photos", protocol := ProtocolType.s3, parameters := some [("region", "eu")] }

def wReqBar : CreateBucketRequest :=
  { name := "bar", protocol := ProtocolType.s3, parameters := some [] }

/-- The state after creating the bucket "photos" on a fresh server. -/
def wStatePhotos : ServerState :=
  (ProvisionerCreateBucket NewProvisionerServer wReqPhotos).2

/-- The state after creating "photos" (identifier 0) and "bar" (identifier 1). -/
def wStateTwo : ServerState :=
  (ProvisionerCreateBucket wStatePhotos wReqBar).2

/-- The live record of "photos" in `wStatePhotos` and `wStateTwo`. -/
def wBucketPhotos : Bucket :=
  { bucketId := 0, bucketName := "photos", parameters := some []
    accountsByName := [], accountsByUUID := [] }

/-- The live record of "bar" in `wStateTwo`. -/
def wBucketBar : Bucket :=
  { bucketId := 1, bucketName := "bar", parameters := some []
    accountsByName := [], accountsByUUID := [] }

def wReqGrantAlice : GrantBucketAccessRequest :=
  { bucketId := IdString.wellFormed 0, accountName := "alice"
    accessPolicy := "p1", parameters := some [("k", "v")] }

/-- The state after additionally granting "alice" on "photos". -/
def wStateAlice : ServerState :=
  (ProvisionerGrantBucketAccess wStatePhotos wReqGrantAlice).2

/-- The live grant record of "alice" in `wStateAlice`. -/
def wAccountAlice : Account :=
  { accountId := 1, accountName := "alice", accessPolicy := "p1"
    parameters := some [("k", "v")] }

/-- The live record of "photos" in `wStateAlice`. -/
def wBucketPhotosAlice : Bucket :=
  { bucketId := 0, bucketName := "photos", parameters := some []
    accountsByName := [("alice", wAccountAlice)]
    accountsByUUID := [(1, wAccountAlice)] }

def wGrantAliceB1 : GrantBucketAccessRequest :=
  { bucketId := IdString.wellFormed 0, accountName := "alice"
    accessPolicy := "p", parameters := none }

def wGrantAliceB2 : GrantBucketAccessRequest :=
  { bucketId := IdString.wellFormed 1, accountName := "alice"
    accessPolicy := "p", parameters := none }

end Registry

namespace Driver

/-- The default configuration: no BucketID override, no injected error. -/
def wDriverCfg : DriverConfig := { overridesBucketID := "", errorsCreateBucket := none }

/-- A backend already holding bucket "photos" with parameters mapping k to v1. -/
def wDriverClient : FakeClient := { buckets := [("photos", some [("k", "v1")])] }

/-- A create request for the same name with different parameters (k maps to v2). -/
def wDriverReq : DriverCreateBucketRequest :=
  { name := "photos", parameters := some [("k", "v2")] }

end Driver

/-! # Theorems -/

/-! ## Association-list lemmas -/

theorem alook_aset_self {κ ν : Type} [DecidableEq κ] (m : List (κ × ν)) (k : κ) (v : ν) :
    alook (aset m k v) k = some v := by
  induction m with
  | nil => simp [aset, alook]
  | cons e t ih =>
    by_cases h : e.1 = k
    · simp [aset, h, alook]
    · simp [aset, h, alook, ih]

theorem alook_aset_ne {κ ν : Type} [DecidableEq κ] (m : List (κ × ν)) {k x : κ} (v : ν)
    (h : x ≠ k) : alook (aset m k v) x = alook m x := by
  have hkx : ¬ k = x := fun hh => h hh.symm
  induction m with
  | nil => simp [aset, alook, hkx]
  | cons e t ih =>
    by_cases he : e.1 = k
    · simp [aset, he, alook, hkx]
    · have hrw : aset (e :: t) k v = e :: aset t k v := by simp [aset, he]
      rw [hrw]
      by_cases hx : e.1 = x
      · simp [alook, hx]
      · simp [alook, hx, ih]

theorem adel_sublist {κ ν : Type} [DecidableEq κ] (m : List (κ × ν)) (k : κ) :
    (adel m k).Sublist m := by
  induction m with
  | nil => simp [adel]
  | cons e t ih =>
    by_cases h : e.1 = k
    · simp only [adel, h, if_pos]
      exact List.sublist_cons_self e t
    · simp only [adel, h, if_neg, ne_eq, not_false_iff]
      exact List.Sublist.cons₂ e ih

theorem nodupKeys_adel {κ ν : Type} [DecidableEq κ] {m : List (κ × ν)} (k : κ)
    (h : NodupKeys m) : NodupKeys (adel m k) :=
  List.Nodup.sublist (List.Sublist.map Prod.fst (adel_sublist m k)) h

theorem alook_adel_ne {κ ν : Type} [DecidableEq κ] (m : List (κ × ν)) {k x : κ}
    (h : x ≠ k) : alook (adel m k) x = alook m x := by
  have hkx : ¬ k = x := fun hh => h hh.symm
  induction m with
  | nil => simp [adel]
  | cons e t ih =>
    by_cases he : e.1 = k
    · simp [adel, he, alook, hkx]
    · have hrw : adel (e :: t) k = e :: adel t k := by simp [adel, he]
      rw [hrw]
      by_cases hx : e.1 = x
      · simp [alook, hx]
      · simp [alook, hx, ih]

theorem alook_notin {κ ν : Type} [DecidableEq κ] {m : List (κ × ν)} {k : κ}
    (h : k ∉ m.map Prod.fst) : alook m k = none := by
  induction m with
  | nil => rfl
  | cons e t ih =>
    simp only [List.map_cons, List.mem_cons] at h
    push_neg at h
    have he : ¬ e.1 = k := fun hh => h.1 hh.symm
    simp [alook, he, ih h.2]

theorem alook_adel_self {κ ν : Type} [DecidableEq κ] {m : List (κ × ν)} (k : κ)
    (h : NodupKeys m) : alook (adel m k) k = none := by
  induction m with
  | nil => simp [adel, alook]
  | cons e t ih =>
    simp only [NodupKeys, List.map_cons] at h
    have h1 : e.1 ∉ t.map Prod.fst := (List.nodup_cons.mp h).1
    have h2 : NodupKeys t := (List.nodup_cons.mp h).2
    by_cases he : e.1 = k
    · have hrw : adel (e :: t) k = t := by simp [adel, he]
      rw [hrw]
      exact alook_notin (he ▸ h1)
    · simp [adel, he, alook, ih h2]

theorem keys_aset_mem {κ ν : Type} [DecidableEq κ] {m : List (κ × ν)} {k x : κ} {v : ν}
    (h : x ∈ (aset m k v).map Prod.fst) : x ∈ m.map Prod.fst ∨ x = k := by
  induction m with
  | nil =>
    simp [aset] at h
    exact Or.inr h
  | cons e t ih =>
    by_cases he : e.1 = k
    · have hrw : aset (e :: t) k v = (k, v) :: t := by simp [aset, he]
      rw [hrw] at h
      simp only [List.map_cons, List.mem_cons] at h
      rcases h with h | h
      · exact Or.inr h
      · exact Or.inl (by simp only [List.map_cons, List.mem_cons]; exact Or.inr h)
    · have hrw : aset (e :: t) k v = e :: aset t k v := by simp [aset, he]
      rw [hrw] at h
      simp only [List.map_cons, List.mem_cons] at h
      rcases h with h | h
      · exact Or.inl (by simp only [List.map_cons, List.mem_cons]; exact Or.inl h)
      · rcases ih h with hh | hh
        · exact Or.inl (by simp only [List.map_cons, List.mem_cons]; exact Or.inr hh)
        · exact Or.inr hh

theorem nodupKeys_aset {κ ν : Type} [DecidableEq κ] {m : List (κ × ν)} (k : κ) (v : ν)
    (h : NodupKeys m) : NodupKeys (aset m k v) := by
  induction m with
  | nil => simp [aset, NodupKeys]
  | cons e t ih =>
    simp only [NodupKeys, List.map_cons] at h
    have h1 : e.1 ∉ t.map Prod.fst := (List.nodup_cons.mp h).1
    have h2 : (t.map Prod.fst).Nodup := (List.nodup_cons.mp h).2
    by_cases he : e.1 = k
    · have hrw : aset (e :: t) k v = (k, v) :: t := by simp [aset, he]
      rw [hrw]
      simp only [NodupKeys, List.map_cons]
      exact List.nodup_cons.mpr ⟨by simpa [he] using h1, h2⟩
    · have hrw : aset (e :: t) k v = e :: aset t k v := by simp [aset, he]
      rw [hrw]
      simp only [NodupKeys, List.map_cons]
      refine List.nodup_cons.mpr ⟨?_, ih h2⟩
      intro hmem
      rcases keys_aset_mem hmem with hh | hh
      · exact h1 hh
      · exact he hh

theorem alook_mem {κ ν : Type} [DecidableEq κ] {m : List (κ × ν)} {k : κ} {v : ν}
    (h : alook m k = some v) : (k, v) ∈ m := by
  induction m with
  | nil => simp [alook] at h
  | cons e t ih =>
    by_cases he : e.1 = k
    · simp [alook, he] at h
      subst he h
      exact List.mem_cons_self e t
    · simp [alook, he] at h
      exact List.mem_cons_of_mem e (ih h)

theorem alook_adel_none {κ ν : Type} [DecidableEq κ] {m : List (κ × ν)} {x : κ} (k : κ)
    (h : alook m x = none) : alook (adel m k) x = none := by
  induction m with
  | nil => simp [adel, alook]
  | cons e t ih =>
    by_cases hx : e.1 = x
    · simp [alook, hx] at h
    · simp only [alook, hx, if_neg, ne_eq, not_false_iff] at h
      by_cases he : e.1 = k
      · simp [adel, he, h]
      · simp [adel, he, alook, hx, ih h]


/-! ## DeepEqual lemmas -/

theorem pmapSub_refl (p : Pmap) : pmapSub p p = true := by
  simp [pmapSub, List.all_eq_true]

theorem deepEqual_refl (p : Params) : deepEqual p p = true := by
  cases p with
  | none => rfl
  | some q => simp [deepEqual, pmapEqual, pmapSub_refl]

example : deepEqual none (some []) = false := by decide
example : deepEqual (some [("a", "1"), ("b", "2")]) (some [("b", "2"), ("a", "1")]) = true := by
  decide
example : deepEqual (some [("a", "1")]) (some [("a", "2")]) = false := by decide

/-! ## Registry invariant preservation -/

namespace Registry

theorem createCheck_snd (b : Bucket) (req : CreateBucketRequest) (s : ServerState) :
    (createCheck b req s).2 = s := by
  unfold createCheck
  split <;> rfl

theorem grantCheck_snd (a : Account) (req : GrantBucketAccessRequest) (s : ServerState) :
    (grantCheck a req s).2 = s := by
  unfold grantCheck
  split
  · rfl
  · split <;> rfl

theorem wf_new : Wf NewProvisionerServer := by
  constructor <;> simp [NewProvisionerServer, NodupKeys, alook]

theorem BucketWf.mono {n m : UUID} {b : Bucket} (h : n ≤ m) (hb : BucketWf n b) :
    BucketWf m b := by
  refine ⟨hb.ndName, hb.ndUUID, ?_, hb.byUUID⟩
  intro nm a ha
  obtain ⟨h1, h2, h3⟩ := hb.byName nm a ha
  exact ⟨h1, h2, lt_of_lt_of_le h3 h⟩

theorem bucketWf_fresh (bound : UUID) (s : ServerState) (req : CreateBucketRequest) :
    BucketWf bound (freshBucket s req) := by
  constructor <;> simp [freshBucket, NodupKeys, alook]

theorem wf_insertBucket {s : ServerState} {req : CreateBucketRequest}
    (hw : Wf s) (habs : alook s.bucketsByName req.name = none) :
    Wf (insertBucket s (freshBucket s req)) := by
  refine ⟨?_, ?_, ?_, ?_, ?_⟩
  · exact nodupKeys_aset _ _ hw.ndName
  · exact nodupKeys_aset _ _ hw.ndUUID
  · intro n b0 h0
    simp only [insertBucket, freshBucket] at h0 ⊢
    by_cases hn : n = req.name
    · subst hn
      rw [alook_aset_self] at h0
      injection h0 with h0
      subst h0
      exact ⟨rfl, by rw [alook_aset_self], Nat.lt_succ_self _⟩
    · rw [alook_aset_ne _ _ hn] at h0
      obtain ⟨e1, e2, e3⟩ := hw.byName n b0 h0
      refine ⟨e1, ?_, Nat.lt_succ_of_lt e3⟩
      rw [alook_aset_ne _ _ (Nat.ne_of_lt e3)]
      exact e2
  · intro u b0 h0
    simp only [insertBucket, freshBucket] at h0 ⊢
    by_cases hu : u = s.nextUUID
    · subst hu
      rw [alook_aset_self] at h0
      injection h0 with h0
      subst h0
      exact ⟨rfl, by rw [alook_aset_self]⟩
    · rw [alook_aset_ne _ _ hu] at h0
      obtain ⟨e1, e2⟩ := hw.byUUID u b0 h0
      refine ⟨e1, ?_⟩
      have hne : b0.bucketName ≠ req.name := by
        intro he
        rw [he, habs] at e2
        cases e2
      rw [alook_aset_ne _ _ hne]
      exact e2
  · intro u b0 h0
    simp only [insertBucket, freshBucket] at h0 ⊢
    by_cases hu : u = s.nextUUID
    · rw [hu, alook_aset_self] at h0
      injection h0 with h0
      subst h0
      exact bucketWf_fresh _ s req
    · rw [alook_aset_ne _ _ hu] at h0
      exact (hw.accounts u b0 h0).mono (Nat.le_succ _)

theorem wf_createBucket (s : ServerState) (req : CreateBucketRequest) (hw : Wf s) :
    Wf (ProvisionerCreateBucket s req).2 := by
  unfold ProvisionerCreateBucket
  by_cases hp : req.protocol.getS3IsNil
  · simpa [hp] using hw
  · simp only [hp, Bool.false_eq_true, if_false]
    cases hlook : alook s.bucketsByName req.name with
    | some b =>
      rw [createCheck_snd]
      exact hw
    | none =>
      rw [createCheck_snd]
      exact wf_insertBucket hw hlook

theorem wf_removeBucket {s : ServerState} {id : UUID} {b : Bucket}
    (hw : Wf s) (hb : alook s.bucketsByUUID id = some b) :
    Wf { s with
         bucketsByName := adel s.bucketsByName b.bucketName
         bucketsByUUID := adel s.bucketsByUUID b.bucketId } := by
  obtain ⟨hbid, hbname⟩ := hw.byUUID id b hb
  have hbid' : alook s.bucketsByUUID b.bucketId = some b := by rw [hbid]; exact hb
  refine ⟨?_, ?_, ?_, ?_, ?_⟩
  · exact nodupKeys_adel _ hw.ndName
  · exact nodupKeys_adel _ hw.ndUUID
  · intro n b0 h0
    dsimp only at h0 ⊢
    by_cases hn : n = b.bucketName
    · rw [hn, alook_adel_self _ hw.ndName] at h0
      cases h0
    · rw [alook_adel_ne _ hn] at h0
      obtain ⟨e1, e2, e3⟩ := hw.byName n b0 h0
      have hne : b0.bucketId ≠ b.bucketId := by
        intro he
        rw [he, hbid'] at e2
        injection e2 with e2
        rw [e2] at hn
        exact hn e1.symm
      refine ⟨e1, ?_, e3⟩
      rw [alook_adel_ne _ hne]
      exact e2
  · intro u b0 h0
    dsimp only at h0 ⊢
    by_cases hu : u = b.bucketId
    · rw [hu, alook_adel_self _ hw.ndUUID] at h0
      cases h0
    · rw [alook_adel_ne _ hu] at h0
      obtain ⟨e1, e2⟩ := hw.byUUID u b0 h0
      have hne : b0.bucketName ≠ b.bucketName := by
        intro he
        rw [he, hbname] at e2
        injection e2 with e2
        rw [e2, e1] at hu
        exact hu rfl
      refine ⟨e1, ?_⟩
      rw [alook_adel_ne _ hne]
      exact e2
  · intro u b0 h0
    dsimp only at h0 ⊢
    by_cases hu : u = b.bucketId
    · rw [hu, alook_adel_self _ hw.ndUUID] at h0
      cases h0
    · rw [alook_adel_ne _ hu] at h0
      exact hw.accounts u b0 h0

theorem wf_deleteBucket (s : ServerState) (req : DeleteBucketRequest) (hw : Wf s) :
    Wf (ProvisionerDeleteBucket s req).2 := by
  unfold ProvisionerDeleteBucket
  cases hid : uuidParse req.bucketId with
  | none => exact hw
  | some bucketId =>
    dsimp only
    cases hb : alook s.bucketsByUUID bucketId with
    | none => exact hw
    | some b => exact wf_removeBucket hw hb

theorem wf_updateBucket {s : ServerState} {id : UUID} {b b' : Bucket} {n : UUID}
    (hw : Wf s) (hb : alook s.bucketsByUUID id = some b)
    (hname : b'.bucketName = b.bucketName) (hid : b'.bucketId = b.bucketId)
    (hn : s.nextUUID ≤ n) (hwf' : BucketWf n b') :
    Wf { updateBucket s b b' with nextUUID := n } := by
  obtain ⟨hbid, hbname⟩ := hw.byUUID id b hb
  have hb' : alook s.bucketsByUUID b.bucketId = some b := by rw [hbid]; exact hb
  obtain ⟨-, -, hblt⟩ := hw.byName b.bucketName b hbname
  refine ⟨?_, ?_, ?_, ?_, ?_⟩
  · exact nodupKeys_aset _ _ hw.ndName
  · exact nodupKeys_aset _ _ hw.ndUUID
  · intro n0 b0 h0
    simp only [updateBucket] at h0 ⊢
    by_cases hn0 : n0 = b.bucketName
    · subst hn0
      rw [alook_aset_self] at h0
      injection h0 with h0
      subst h0
      refine ⟨hname, ?_, ?_⟩
      · rw [hid, alook_aset_self]
      · rw [hid]
        exact lt_of_lt_of_le hblt hn
    · rw [alook_aset_ne _ _ hn0] at h0
      obtain ⟨e1, e2, e3⟩ := hw.byName n0 b0 h0
      have hne : b0.bucketId ≠ b.bucketId := by
        intro he
        rw [he, hb'] at e2
        injection e2 with e2
        rw [e2] at hn0
        exact hn0 e1.symm
      refine ⟨e1, ?_, lt_of_lt_of_le e3 hn⟩
      rw [alook_aset_ne _ _ hne]
      exact e2
  · intro u b0 h0
    simp only [updateBucket] at h0 ⊢
    by_cases hu : u = b.bucketId
    · subst hu
      rw [alook_aset_self] at h0
      injection h0 with h0
      subst h0
      refine ⟨hid, ?_⟩
      rw [hname, alook_aset_self]
    · rw [alook_aset_ne _ _ hu] at h0
      obtain ⟨e1, e2⟩ := hw.byUUID u b0 h0
      have hne : b0.bucketName ≠ b.bucketName := by
        intro he
        rw [he, hbname] at e2
        injection e2 with e2
        rw [e2, e1] at hu
        exact hu rfl
      refine ⟨e1, ?_⟩
      rw [alook_aset_ne _ _ hne]
      exact e2
  · intro u b0 h0
    simp only [updateBucket] at h0 ⊢
    by_cases hu : u = b.bucketId
    · subst hu
      rw [alook_aset_self] at h0
      injection h0 with h0
      subst h0
      exact hwf'
    · rw [alook_aset_ne _ _ hu] at h0
      exact (hw.accounts u b0 h0).mono hn

theorem bucketWf_withAccount {bound : UUID} {b : Bucket} {a : Account}
    (hb : BucketWf bound b) (habs : alook b.accountsByName a.accountName = none)
    (haid : a.accountId = bound) :
    BucketWf (bound + 1) (bucketWithAccount b a) := by
  refine ⟨?_, ?_, ?_, ?_⟩
  · exact nodupKeys_aset _ _ hb.ndName
  · exact nodupKeys_aset _ _ hb.ndUUID
  · intro n a0 h0
    simp only [bucketWithAccount] at h0 ⊢
    by_cases hn : n = a.accountName
    · subst hn
      rw [alook_aset_self] at h0
      injection h0 with h0
      subst h0
      refine ⟨rfl, ?_, ?_⟩
      · rw [alook_aset_self]
      · rw [haid]
        exact Nat.lt_succ_self _
    · rw [alook_aset_ne _ _ hn] at h0
      obtain ⟨e1, e2, e3⟩ := hb.byName n a0 h0
      have hne : a0.accountId ≠ a.accountId := by
        rw [haid]
        exact Nat.ne_of_lt e3
      refine ⟨e1, ?_, Nat.lt_succ_of_lt e3⟩
      rw [alook_aset_ne _ _ hne]
      exact e2
  · intro u a0 h0
    simp only [bucketWithAccount] at h0 ⊢
    by_cases hu : u = a.accountId
    · subst hu
      rw [alook_aset_self] at h0
      injection h0 with h0
      subst h0
      exact ⟨rfl, by rw [alook_aset_self]⟩
    · rw [alook_aset_ne _ _ hu] at h0
      obtain ⟨e1, e2⟩ := hb.byUUID u a0 h0
      have hne : a0.accountName ≠ a.accountName := by
        intro he
        rw [he, habs] at e2
        cases e2
      refine ⟨e1, ?_⟩
      rw [alook_aset_ne _ _ hne]
      exact e2

theorem bucketWf_removeAccount {bound : UUID} {b : Bucket} {a : Account} {u : UUID}
    (hb : BucketWf bound b) (ha : alook b.accountsByUUID u = some a) :
    BucketWf bound
      { b with
        accountsByName := adel b.accountsByName a.accountName
        accountsByUUID := adel b.accountsByUUID a.accountId } := by
  obtain ⟨haid, haname⟩ := hb.byUUID u a ha
  have ha' : alook b.accountsByUUID a.accountId = some a := by rw [haid]; exact ha
  refine ⟨?_, ?_, ?_, ?_⟩
  · exact nodupKeys_adel _ hb.ndName
  · exact nodupKeys_adel _ hb.ndUUID
  · intro n a0 h0
    simp only at h0 ⊢
    by_cases hn : n = a.accountName
    · rw [hn, alook_adel_self _ hb.ndName] at h0
      cases h0
    · rw [alook_adel_ne _ hn] at h0
      obtain ⟨e1, e2, e3⟩ := hb.byName n a0 h0
      have hne : a0.accountId ≠ a.accountId := by
        intro he
        rw [he, ha'] at e2
        injection e2 with e2
        rw [e2] at hn
        exact hn e1.symm
      refine ⟨e1, ?_, e3⟩
      rw [alook_adel_ne _ hne]
      exact e2
  · intro u0 a0 h0
    simp only at h0 ⊢
    by_cases hu : u0 = a.accountId
    · rw [hu, alook_adel_self _ hb.ndUUID] at h0
      cases h0
    · rw [alook_adel_ne _ hu] at h0
      obtain ⟨e1, e2⟩ := hb.byUUID u0 a0 h0
      have hne : a0.accountName ≠ a.accountName := by
        intro he
        rw [he, haname] at e2
        injection e2 with e2
        rw [e2, e1] at hu
        exact hu rfl
      refine ⟨e1, ?_⟩
      rw [alook_adel_ne _ hne]
      exact e2

theorem wf_grantBucketAccess (s : ServerState) (req : GrantBucketAccessRequest) (hw : Wf s) :
    Wf (ProvisionerGrantBucketAccess s req).2 := by
  unfold ProvisionerGrantBucketAccess
  cases hid : uuidParse req.bucketId with
  | none => exact hw
  | some id =>
    dsimp only
    cases hb : alook s.bucketsByUUID id with
    | none => exact hw
    | some b =>
      dsimp only
      cases ha : alook b.accountsByName req.accountName with
      | some a =>
        rw [grantCheck_snd]
        exact hw
      | none =>
        rw [grantCheck_snd]
        have hwf' : BucketWf (s.nextUUID + 1) (bucketWithAccount b (freshAccount s req)) :=
          bucketWf_withAccount (hw.accounts id b hb) ha rfl
        refine wf_updateBucket hw hb ?_ ?_ (Nat.le_succ _) hwf' <;> rfl

theorem wf_revokeBucketAccess (s : ServerState) (req : RevokeBucketAccessRequest) (hw : Wf s) :
    Wf (ProvisionerRevokeBucketAccess s req).2 := by
  unfold ProvisionerRevokeBucketAccess
  cases hbid : uuidParse req.bucketId with
  | none => exact hw
  | some bucketId =>
    dsimp only
    cases haid : uuidParse req.accountId with
    | none => exact hw
    | some accountId =>
      dsimp only
      cases hb : alook s.bucketsByUUID bucketId with
      | none => exact hw
      | some b =>
        dsimp only
        cases ha : alook b.accountsByUUID accountId with
        | none => exact hw
        | some a =>
          have hwf' : BucketWf s.nextUUID
              { b with
                accountsByName := adel b.accountsByName a.accountName
                accountsByUUID := adel b.accountsByUUID a.accountId } :=
            bucketWf_removeAccount (hw.accounts bucketId b hb) ha
          refine wf_updateBucket hw hb ?_ ?_ le_rfl hwf' <;> rfl

theorem wf_step {s t : ServerState} (h : Step s t) (hw : Wf s) : Wf t := by
  cases h with
  | createBucket req => exact wf_createBucket s req hw
  | deleteBucket req => exact wf_deleteBucket s req hw
  | grantBucketAccess req => exact wf_grantBucketAccess s req hw
  | revokeBucketAccess req => exact wf_revokeBucketAccess s req hw

theorem wf_reachableFrom {s t : ServerState} (h : ReachableFrom s t) (hw : Wf s) : Wf t := by
  induction h with
  | refl => exact hw
  | tail _ hstep ih => exact wf_step hstep ih

theorem wf_reachable {s : ServerState} (h : Reachable s) : Wf s :=
  wf_reachableFrom h wf_new

/-! ## Per-branch characterizations of the operations -/

theorem createBucket_invalid (s : ServerState) (req : CreateBucketRequest)
    (hp : req.protocol.getS3IsNil = true) :
    ProvisionerCreateBucket s req = (Except.error errOnlyS3, s) := by
  unfold ProvisionerCreateBucket
  rw [hp]
  rfl

theorem createBucket_found (s : ServerState) (req : CreateBucketRequest) (b : Bucket)
    (hp : req.protocol.getS3IsNil = false)
    (hlook : alook s.bucketsByName req.name = some b) :
    ProvisionerCreateBucket s req = createCheck b req s := by
  unfold ProvisionerCreateBucket
  simp only [hp, Bool.false_eq_true, if_false]
  rw [hlook]

theorem createBucket_fresh (s : ServerState) (req : CreateBucketRequest)
    (hp : req.protocol.getS3IsNil = false)
    (hlook : alook s.bucketsByName req.name = none) :
    ProvisionerCreateBucket s req =
      (Except.ok ⟨s.nextUUID⟩, insertBucket s (freshBucket s req)) := by
  unfold ProvisionerCreateBucket
  simp only [hp, Bool.false_eq_true, if_false]
  rw [hlook]
  dsimp only
  unfold createCheck
  rw [show deepEqual (freshBucket s req).parameters req.parameters = true from
    deepEqual_refl req.parameters]
  rfl

theorem grantAccess_invalid (s : ServerState) (req : GrantBucketAccessRequest)
    (hid : uuidParse req.bucketId = none) :
    ProvisionerGrantBucketAccess s req = (Except.error errInvalidBucketId, s) := by
  unfold ProvisionerGrantBucketAccess
  rw [hid]

theorem grantAccess_noBucket (s : ServerState) (req : GrantBucketAccessRequest) (id : UUID)
    (hid : uuidParse req.bucketId = some id)
    (hb : alook s.bucketsByUUID id = none) :
    ProvisionerGrantBucketAccess s req = (Except.error errNoSuchBucket, s) := by
  unfold ProvisionerGrantBucketAccess
  rw [hid]
  dsimp only
  rw [hb]

theorem grantAccess_existing (s : ServerState) (req : GrantBucketAccessRequest)
    (id : UUID) (b : Bucket) (a : Account)
    (hid : uuidParse req.bucketId = some id)
    (hb : alook s.bucketsByUUID id = some b)
    (ha : alook b.accountsByName req.accountName = some a) :
    ProvisionerGrantBucketAccess s req = grantCheck a req s := by
  unfold ProvisionerGrantBucketAccess
  rw [hid]
  dsimp only
  rw [hb]
  dsimp only
  rw [ha]

theorem grantAccess_fresh (s : ServerState) (req : GrantBucketAccessRequest)
    (id : UUID) (b : Bucket)
    (hid : uuidParse req.bucketId = some id)
    (hb : alook s.bucketsByUUID id = some b)
    (ha : alook b.accountsByName req.accountName = none) :
    ProvisionerGrantBucketAccess s req =
      (Except.ok ⟨s.nextUUID, "# Nothing to see here", ".aws/credentials"⟩,
        { updateBucket s b (bucketWithAccount b (freshAccount s req)) with
          nextUUID := s.nextUUID + 1 }) := by
  unfold ProvisionerGrantBucketAccess
  rw [hid]
  dsimp only
  rw [hb]
  dsimp only
  rw [ha]
  dsimp only
  unfold grantCheck
  rw [show deepEqual (freshAccount s req).parameters req.parameters = true from
    deepEqual_refl req.parameters]
  rw [if_neg (by simp)]
  rw [if_neg (by simp [freshAccount])]
  rfl

theorem revokeAccess_noBucket (s : ServerState) (req : RevokeBucketAccessRequest)
    (bucketId accountId : UUID)
    (h1 : uuidParse req.bucketId = some bucketId)
    (h2 : uuidParse req.accountId = some accountId)
    (hb : alook s.bucketsByUUID bucketId = none) :
    ProvisionerRevokeBucketAccess s req = (Except.error errNoSuchBucket, s) := by
  unfold ProvisionerRevokeBucketAccess
  rw [h1]
  dsimp only
  rw [h2]
  dsimp only
  rw [hb]

/-! ## Frame lemmas: operations on one bucket do not touch other buckets -/

theorem grant_preserves_other (s : ServerState) (req : GrantBucketAccessRequest)
    {i1 i2 : UUID} {b2 : Bucket}
    (hw : Wf s) (hid : uuidParse req.bucketId = some i1) (hne : i2 ≠ i1)
    (h2 : alook s.bucketsByUUID i2 = some b2) :
    alook (ProvisionerGrantBucketAccess s req).2.bucketsByUUID i2 = some b2 := by
  cases hb : alook s.bucketsByUUID i1 with
  | none =>
    rw [grantAccess_noBucket s req i1 hid hb]
    exact h2
  | some b =>
    have hkey : i2 ≠ b.bucketId := by
      rw [(hw.byUUID i1 b hb).1]
      exact hne
    cases ha : alook b.accountsByName req.accountName with
    | some a =>
      rw [grantAccess_existing s req i1 b a hid hb ha, grantCheck_snd]
      exact h2
    | none =>
      rw [grantAccess_fresh s req i1 b hid hb ha]
      dsimp only [updateBucket]
      rw [alook_aset_ne _ _ hkey]
      exact h2

theorem revoke_preserves_other (s : ServerState) (req : RevokeBucketAccessRequest)
    {i1 i2 : UUID} {b2 : Bucket}
    (hw : Wf s) (hid : uuidParse req.bucketId = some i1) (hne : i2 ≠ i1)
    (h2 : alook s.bucketsByUUID i2 = some b2) :
    alook (ProvisionerRevokeBucketAccess s req).2.bucketsByUUID i2 = some b2 := by
  unfold ProvisionerRevokeBucketAccess
  rw [hid]
  dsimp only
  cases ha2 : uuidParse req.accountId with
  | none => exact h2
  | some accountId =>
    dsimp only
    cases hb : alook s.bucketsByUUID i1 with
    | none => exact h2
    | some b =>
      dsimp only
      cases ha : alook b.accountsByUUID accountId with
      | none => exact h2
      | some a =>
        dsimp only [updateBucket]
        have hkey : i2 ≠ b.bucketId := by
          rw [(hw.byUUID i1 b hb).1]
          exact hne
        rw [alook_aset_ne _ _ hkey]
        exact h2

/-! ## Destroyed identifiers stay dead and below the generator bound -/

theorem dead_step {s t : ServerState} {B : UUID} (h : Step s t) (hw : Wf s)
    (hd : alook s.bucketsByUUID B = none) (hlt : B < s.nextUUID) :
    alook t.bucketsByUUID B = none ∧ B < t.nextUUID := by
  cases h with
  | createBucket req =>
    by_cases hp : req.protocol.getS3IsNil
    · rw [createBucket_invalid s req hp]
      exact ⟨hd, hlt⟩
    · have hp' : req.protocol.getS3IsNil = false := by simpa using hp
      cases hlook : alook s.bucketsByName req.name with
      | some b =>
        rw [createBucket_found s req b hp' hlook, createCheck_snd]
        exact ⟨hd, hlt⟩
      | none =>
        rw [createBucket_fresh s req hp' hlook]
        dsimp only [insertBucket, freshBucket]
        constructor
        · rw [alook_aset_ne _ _ (Nat.ne_of_lt hlt)]
          exact hd
        · exact Nat.lt_succ_of_lt hlt
  | deleteBucket req =>
    unfold ProvisionerDeleteBucket
    cases hid : uuidParse req.bucketId with
    | none => exact ⟨hd, hlt⟩
    | some bucketId =>
      dsimp only
      cases hb : alook s.bucketsByUUID bucketId with
      | none => exact ⟨hd, hlt⟩
      | some b =>
        dsimp only
        exact ⟨alook_adel_none _ hd, hlt⟩
  | grantBucketAccess req =>
    cases hid : uuidParse req.bucketId with
    | none =>
      rw [grantAccess_invalid s req hid]
      exact ⟨hd, hlt⟩
    | some id =>
      cases hb : alook s.bucketsByUUID id with
      | none =>
        rw [grantAccess_noBucket s req id hid hb]
        exact ⟨hd, hlt⟩
      | some b =>
        have hkey : B ≠ b.bucketId := by
          intro he
          rw [(hw.byUUID id b hb).1] at he
          rw [he, hb] at hd
          cases hd
        cases ha : alook b.accountsByName req.accountName with
        | some a =>
          rw [grantAccess_existing s req id b a hid hb ha, grantCheck_snd]
          exact ⟨hd, hlt⟩
        | none =>
          rw [grantAccess_fresh s req id b hid hb ha]
          dsimp only [updateBucket]
          constructor
          · rw [alook_aset_ne _ _ hkey]
            exact hd
          · exact Nat.lt_succ_of_lt hlt
  | revokeBucketAccess req =>
    unfold ProvisionerRevokeBucketAccess
    cases h1 : uuidParse req.bucketId with
    | none => exact ⟨hd, hlt⟩
    | some bucketId =>
      dsimp only
      cases h2 : uuidParse req.accountId with
      | none => exact ⟨hd, hlt⟩
      | some accountId =>
        dsimp only
        cases hb : alook s.bucketsByUUID bucketId with
        | none => exact ⟨hd, hlt⟩
        | some b =>
          dsimp only
          cases ha : alook b.accountsByUUID accountId with
          | none => exact ⟨hd, hlt⟩
          | some a =>
            dsimp only [updateBucket]
            have hkey : B ≠ b.bucketId := by
              intro he
              rw [(hw.byUUID bucketId b hb).1] at he
              rw [he, hb] at hd
              cases hd
            constructor
            · rw [alook_aset_ne _ _ hkey]
              exact hd
            · exact hlt

theorem dead_reachableFrom {s t : ServerState} {B : UUID} (h : ReachableFrom s t) (hw : Wf s)
    (hd : alook s.bucketsByUUID B = none) (hlt : B < s.nextUUID) :
    Wf t ∧ alook t.bucketsByUUID B = none ∧ B < t.nextUUID := by
  induction h with
  | refl => exact ⟨hw, hd, hlt⟩
  | tail _hab hbc ih =>
    obtain ⟨hw1, hd1, hlt1⟩ := ih
    obtain ⟨hd2, hlt2⟩ := dead_step hbc hw1 hd1 hlt1
    exact ⟨wf_step hbc hw1, hd2, hlt2⟩

/-! ## Claim theorems -/

/-- C2: create is idempotent — if a create call succeeds with identifier `r`,
repeating the identical call from the resulting state succeeds again with the
same identifier (and leaves the state unchanged). -/
theorem createBucket_idempotent (s s1 : ServerState) (req : CreateBucketRequest)
    (r : CreateBucketResponse)
    (h : ProvisionerCreateBucket s req = (Except.ok r, s1)) :
    ProvisionerCreateBucket s1 req = (Except.ok r, s1) := by
  by_cases hp : req.protocol.getS3IsNil
  · rw [createBucket_invalid s req hp] at h
    simp at h
  · have hp' : req.protocol.getS3IsNil = false := by simpa using hp
    cases hlook : alook s.bucketsByName req.name with
    | some b =>
      rw [createBucket_found s req b hp' hlook] at h
      unfold createCheck at h
      by_cases hd : deepEqual b.parameters req.parameters
      · rw [if_pos hd] at h
        rw [Prod.mk.injEq] at h
        obtain ⟨h1, h2⟩ := h
        injection h1 with h1
        subst h2
        rw [createBucket_found s req b hp' hlook]
        unfold createCheck
        rw [if_pos hd, h1]
      · rw [if_neg hd] at h
        simp at h
    | none =>
      rw [createBucket_fresh s req hp' hlook] at h
      rw [Prod.mk.injEq] at h
      obtain ⟨h1, h2⟩ := h
      injection h1 with h1
      subst h2
      have hlook2 : alook (insertBucket s (freshBucket s req)).bucketsByName req.name
          = some (freshBucket s req) := by
        dsimp only [insertBucket]
        exact alook_aset_self _ _ _
      rw [createBucket_found _ req (freshBucket s req) hp' hlook2]
      unfold createCheck
      rw [if_pos (show deepEqual (freshBucket s req).parameters req.parameters = true from
        deepEqual_refl req.parameters)]
      dsimp only [freshBucket]
      rw [h1]

/-- C2 witness: creating "photos" twice on a fresh server returns identifier 0
both times, with no error on the second call. -/
theorem createBucket_idempotent_witness :
    ProvisionerCreateBucket NewProvisionerServer wReqPhotos = (Except.ok ⟨0⟩, wStatePhotos) ∧
    ProvisionerCreateBucket wStatePhotos wReqPhotos = (Except.ok ⟨0⟩, wStatePhotos) :=
  ⟨rfl, createBucket_idempotent NewProvisionerServer wStatePhotos wReqPhotos ⟨0⟩ rfl⟩

/-- C4: in every state reachable from the empty registry by any sequence of the
four operations, the name-keyed and identifier-keyed bucket indices are
mutually consistent, and so are each live bucket's two account-grant indices
(`Wf` spells out both directions plus duplicate-freedom). -/
theorem registry_index_consistency (s : ServerState) (h : Reachable s) : Wf s :=
  wf_reachableFrom h wf_new

/-- C4 witness: the state after one create is reachable and well-formed. -/
theorem registry_index_consistency_witness : Reachable wStatePhotos ∧ Wf wStatePhotos :=
  ⟨Relation.ReflTransGen.single (Step.createBucket NewProvisionerServer wReqPhotos),
   registry_index_consistency wStatePhotos
     (Relation.ReflTransGen.single (Step.createBucket NewProvisionerServer wReqPhotos))⟩

/-- C5: delete is an idempotent no-op on absent targets — with a parseable
bucket identifier, delete succeeds whether or not the bucket is live, deleting
twice succeeds, and when no such bucket is live the state is unchanged. -/
theorem deleteBucket_idempotent (s : ServerState) (req : DeleteBucketRequest) (n : UUID)
    (h : uuidParse req.bucketId = some n) :
    (ProvisionerDeleteBucket s req).1 = Except.ok ⟨⟩ ∧
    (ProvisionerDeleteBucket (ProvisionerDeleteBucket s req).2 req).1 = Except.ok ⟨⟩ ∧
    (alook s.bucketsByUUID n = none → (ProvisionerDeleteBucket s req).2 = s) := by
  have key : ∀ t : ServerState, (ProvisionerDeleteBucket t req).1 = Except.ok ⟨⟩ := by
    intro t
    unfold ProvisionerDeleteBucket
    rw [h]
    dsimp only
    cases hb : alook t.bucketsByUUID n <;> rfl
  refine ⟨key s, key _, ?_⟩
  intro habs
  unfold ProvisionerDeleteBucket
  rw [h]
  dsimp only
  rw [habs]

/-- C5 witness: deleting the never-created identifier 7 on a fresh server
succeeds, deleting it twice succeeds, and the state is unchanged. -/
theorem deleteBucket_idempotent_witness :
    uuidParse (IdString.wellFormed 7) = some 7 ∧
    ((ProvisionerDeleteBucket NewProvisionerServer ⟨IdString.wellFormed 7⟩).1 = Except.ok ⟨⟩ ∧
     (ProvisionerDeleteBucket
        (ProvisionerDeleteBucket NewProvisionerServer ⟨IdString.wellFormed 7⟩).2
        ⟨IdString.wellFormed 7⟩).1 = Except.ok ⟨⟩ ∧
     (alook NewProvisionerServer.bucketsByUUID 7 = none →
       (ProvisionerDeleteBucket NewProvisionerServer ⟨IdString.wellFormed 7⟩).2 =
         NewProvisionerServer)) :=
  ⟨rfl, deleteBucket_idempotent NewProvisionerServer ⟨IdString.wellFormed 7⟩ 7 rfl⟩

/-- C8: validation precedes allocation — a create request whose protocol is not
S3 fails with InvalidArgument and returns the state exactly as it was (both
indices untouched), whether or not the requested name already exists. -/
theorem validation_precedes_allocation (s : ServerState) (req : CreateBucketRequest)
    (h : req.protocol ≠ ProtocolType.s3) :
    ProvisionerCreateBucket s req = (Except.error errOnlyS3, s) := by
  apply createBucket_invalid
  cases hp : req.protocol with
  | s3 => exact absurd hp h
  | azureBlob => rfl
  | gcs => rfl

/-- C8 witness: an AzureBlob create request for the already-existing name
"photos" fails with InvalidArgument and leaves the registry untouched. -/
theorem validation_precedes_allocation_witness :
    ({ name := "photos", protocol := ProtocolType.azureBlob, parameters := some [] }
        : CreateBucketRequest).protocol ≠ ProtocolType.s3 ∧
    ProvisionerCreateBucket wStatePhotos
        { name := "photos", protocol := ProtocolType.azureBlob, parameters := some [] } =
      (Except.error errOnlyS3, wStatePhotos) :=
  ⟨by decide, validation_precedes_allocation wStatePhotos _ (by decide)⟩

/-- C10: `reflect.DeepEqual` distinguishes a nil parameter map from a present
empty one: creating "b" with nil parameters and re-creating it with an
explicitly empty map fails with AlreadyExists, and vice versa, although both
maps hold zero keys. -/
theorem nil_vs_empty_parameters :
    (ProvisionerCreateBucket NewProvisionerServer
        { name := "b", protocol := ProtocolType.s3, parameters := none }).1 =
      Except.ok ⟨0⟩ ∧
    (ProvisionerCreateBucket
        (ProvisionerCreateBucket NewProvisionerServer
          { name := "b", protocol := ProtocolType.s3, parameters := none }).2
        { name := "b", protocol := ProtocolType.s3, parameters := some [] }) =
      (Except.error errBucketExists,
        (ProvisionerCreateBucket NewProvisionerServer
          { name := "b", protocol := ProtocolType.s3, parameters := none }).2) ∧
    (ProvisionerCreateBucket NewProvisionerServer
        { name := "b", protocol := ProtocolType.s3, parameters := some [] }).1 =
      Except.ok ⟨0⟩ ∧
    (ProvisionerCreateBucket
        (ProvisionerCreateBucket NewProvisionerServer
          { name := "b", protocol := ProtocolType.s3, parameters := some [] }).2
        { name := "b", protocol := ProtocolType.s3, parameters := none }) =
      (Except.error errBucketExists,
        (ProvisionerCreateBucket NewProvisionerServer
          { name := "b", protocol := ProtocolType.s3, parameters := some [] }).2) ∧
    deepEqual none (some []) = false :=
  ⟨rfl, rfl, rfl, rfl, rfl⟩

/-- C3: identifier freshness — if a live bucket with identifier `B` is deleted
(and the delete succeeds), then no create performed in any later state returns
`B` again: identifiers of destroyed buckets are never reassigned. -/
theorem identifier_freshness (s s2 s3 : ServerState) (B : UUID) (b : Bucket)
    (dreq : DeleteBucketRequest) (req : CreateBucketRequest) (r : CreateBucketResponse)
    (hreach : Reachable s)
    (hlive : alook s.bucketsByUUID B = some b)
    (hdel : uuidParse dreq.bucketId = some B)
    (_hdelOk : (ProvisionerDeleteBucket s dreq).1 = Except.ok ⟨⟩)
    (hlater : ReachableFrom (ProvisionerDeleteBucket s dreq).2 s2)
    (hcreate : ProvisionerCreateBucket s2 req = (Except.ok r, s3)) :
    r.bucketId ≠ B := by
  have hw := wf_reachableFrom hreach wf_new
  obtain ⟨hbid, hbname⟩ := hw.byUUID B b hlive
  have hlt : B < s.nextUUID := by
    have hx := (hw.byName b.bucketName b hbname).2.2
    rw [hbid] at hx
    exact hx
  have hstate : (ProvisionerDeleteBucket s dreq).2 =
      { s with
        bucketsByName := adel s.bucketsByName b.bucketName
        bucketsByUUID := adel s.bucketsByUUID b.bucketId } := by
    unfold ProvisionerDeleteBucket
    rw [hdel]
    dsimp only
    rw [hlive]
  have hdead : alook (ProvisionerDeleteBucket s dreq).2.bucketsByUUID B = none := by
    rw [hstate]
    dsimp only
    rw [← hbid]
    exact alook_adel_self _ hw.ndUUID
  have hltd : B < (ProvisionerDeleteBucket s dreq).2.nextUUID := by
    rw [hstate]
    exact hlt
  have hwd : Wf (ProvisionerDeleteBucket s dreq).2 := wf_deleteBucket s dreq hw
  obtain ⟨hw2, hd2, hlt2⟩ := dead_reachableFrom hlater hwd hdead hltd
  by_cases hp : req.protocol.getS3IsNil
  · rw [createBucket_invalid s2 req hp] at hcreate
    simp at hcreate
  · have hp' : req.protocol.getS3IsNil = false := by simpa using hp
    cases hlook : alook s2.bucketsByName req.name with
    | some b2 =>
      rw [createBucket_found s2 req b2 hp' hlook] at hcreate
      unfold createCheck at hcreate
      by_cases hdq : deepEqual b2.parameters req.parameters
      · rw [if_pos hdq] at hcreate
        rw [Prod.mk.injEq] at hcreate
        obtain ⟨h1, -⟩ := hcreate
        injection h1 with h1
        rw [← h1]
        intro he
        have he2 : b2.bucketId = B := he
        obtain ⟨-, e2, -⟩ := hw2.byName req.name b2 hlook
        rw [he2, hd2] at e2
        cases e2
      · rw [if_neg hdq] at hcreate
        simp at hcreate
    | none =>
      rw [createBucket_fresh s2 req hp' hlook] at hcreate
      rw [Prod.mk.injEq] at hcreate
      obtain ⟨h1, -⟩ := hcreate
      injection h1 with h1
      rw [← h1]
      exact (Nat.ne_of_lt hlt2).symm

/-- C3 witness: create "photos" (identifier 0), delete it, recreate with
different parameters: the create succeeds with the new identifier 1, not 0. -/
theorem identifier_freshness_witness :
    Reachable wStatePhotos ∧
    alook wStatePhotos.bucketsByUUID 0 = some wBucketPhotos ∧
    uuidParse (IdString.wellFormed 0) = some 0 ∧
    (ProvisionerDeleteBucket wStatePhotos ⟨IdString.wellFormed 0⟩).1 = Except.ok ⟨⟩ ∧
    (ProvisionerCreateBucket
        (ProvisionerDeleteBucket wStatePhotos ⟨IdString.wellFormed 0⟩).2 wReqPhotosEu).1 =
      Except.ok ⟨1⟩ ∧
    (⟨1⟩ : CreateBucketResponse).bucketId ≠ 0 := by
  refine ⟨Relation.ReflTransGen.single (Step.createBucket NewProvisionerServer wReqPhotos),
    rfl, rfl, rfl, rfl, ?_⟩
  exact identifier_freshness wStatePhotos
    (ProvisionerDeleteBucket wStatePhotos ⟨IdString.wellFormed 0⟩).2
    (ProvisionerCreateBucket
      (ProvisionerDeleteBucket wStatePhotos ⟨IdString.wellFormed 0⟩).2 wReqPhotosEu).2
    0 wBucketPhotos ⟨IdString.wellFormed 0⟩ wReqPhotosEu ⟨1⟩
    (Relation.ReflTransGen.single (Step.createBucket NewProvisionerServer wReqPhotos))
    rfl rfl rfl Relation.ReflTransGen.refl rfl

/-- C6: grant conflict asymmetry — with a live bucket and a live grant for the
requested account name, a parameter mismatch yields the parameter-conflict
AlreadyExists error regardless of the policy; with equal parameters a policy
mismatch yields the policy-conflict AlreadyExists error; with both equal the
call succeeds with the existing grant identifier.  The state is unchanged in
all three cases. -/
theorem grant_conflict_asymmetry (s : ServerState) (req : GrantBucketAccessRequest)
    (id : UUID) (b : Bucket) (a : Account)
    (hid : uuidParse req.bucketId = some id)
    (hb : alook s.bucketsByUUID id = some b)
    (ha : alook b.accountsByName req.accountName = some a) :
    (deepEqual a.parameters req.parameters = false →
      ProvisionerGrantBucketAccess s req = (Except.error errAccountParams, s)) ∧
    (deepEqual a.parameters req.parameters = true → a.accessPolicy ≠ req.accessPolicy →
      ProvisionerGrantBucketAccess s req = (Except.error errAccountPolicy, s)) ∧
    (deepEqual a.parameters req.parameters = true → a.accessPolicy = req.accessPolicy →
      ProvisionerGrantBucketAccess s req =
        (Except.ok ⟨a.accountId, "# Nothing to see here", ".aws/credentials"⟩, s)) := by
  rw [grantAccess_existing s req id b a hid hb ha]
  unfold grantCheck
  refine ⟨?_, ?_, ?_⟩
  · intro hne
    rw [if_pos (show ¬ deepEqual a.parameters req.parameters = true by rw [hne]; simp)]
  · intro heq hpol
    rw [if_neg (show ¬ ¬ deepEqual a.parameters req.parameters = true by rw [heq]; simp)]
    rw [if_pos hpol]
  · intro heq hpol
    rw [if_neg (show ¬ ¬ deepEqual a.parameters req.parameters = true by rw [heq]; simp)]
    rw [if_neg (show ¬ a.accessPolicy ≠ req.accessPolicy by simp [hpol])]

/-- C6 witness: with grant ("alice", parameters k:v, policy "p1") live on
bucket 0, granting again with equal parameters but policy "p2" yields the
policy-conflict error, exercising the asymmetry's second branch. -/
theorem grant_conflict_asymmetry_witness :
    uuidParse (IdString.wellFormed 0) = some 0 ∧
    alook wStateAlice.bucketsByUUID 0 = some wBucketPhotosAlice ∧
    alook wBucketPhotosAlice.accountsByName "alice" = some wAccountAlice ∧
    ProvisionerGrantBucketAccess wStateAlice
        { bucketId := IdString.wellFormed 0, accountName := "alice"
          accessPolicy := "p2", parameters := some [("k", "v")] } =
      (Except.error errAccountPolicy, wStateAlice) := by
  refine ⟨rfl, rfl, rfl, ?_⟩
  exact (grant_conflict_asymmetry wStateAlice
      { bucketId := IdString.wellFormed 0, accountName := "alice"
        accessPolicy := "p2", parameters := some [("k", "v")] }
      0 wBucketPhotosAlice wAccountAlice rfl rfl rfl).2.1 (by decide) (by decide)

/-- C7 counterexample: the claim quantifies over every well-formed bucket
identifier with no live record, but a revoke whose account identifier is
malformed fails with InvalidArgument before the bucket lookup — not with
NotFound as the claim requires. -/
theorem grantRevoke_notFound_counterexample :
    uuidParse (IdString.wellFormed 0) = some 0 ∧
    alook NewProvisionerServer.bucketsByUUID 0 = none ∧
    ProvisionerRevokeBucketAccess NewProvisionerServer
        { bucketId := IdString.wellFormed 0, accountId := IdString.malformed "oops" } =
      (Except.error errInvalidAccountId, NewProvisionerServer) ∧
    errInvalidAccountId.code ≠ Code.notFound :=
  ⟨rfl, rfl, rfl, by decide⟩

/-- C7 (amended): for every well-formed bucket identifier with no live record,
grant fails with NotFound and leaves the state unchanged, and revoke does the
same provided its account identifier also parses (a malformed account
identifier is rejected with InvalidArgument before the bucket lookup). -/
theorem grantRevoke_notFound (s : ServerState) (n : UUID)
    (habs : alook s.bucketsByUUID n = none) :
    (∀ req : GrantBucketAccessRequest, uuidParse req.bucketId = some n →
      ProvisionerGrantBucketAccess s req = (Except.error errNoSuchBucket, s)) ∧
    (∀ (req : RevokeBucketAccessRequest) (m : UUID), uuidParse req.bucketId = some n →
      uuidParse req.accountId = some m →
      ProvisionerRevokeBucketAccess s req = (Except.error errNoSuchBucket, s)) := by
  constructor
  · intro req hid
    exact grantAccess_noBucket s req n hid habs
  · intro req m h1 h2
    exact revokeAccess_noBucket s req n m h1 h2 habs

/-- C7 witness: on a fresh server, granting or revoking against the well-formed
but absent identifier 3 fails with NotFound and changes nothing. -/
theorem grantRevoke_notFound_witness :
    alook NewProvisionerServer.bucketsByUUID 3 = none ∧
    ProvisionerGrantBucketAccess NewProvisionerServer
        { bucketId := IdString.wellFormed 3, accountName := "alice"
          accessPolicy := "p", parameters := none } =
      (Except.error errNoSuchBucket, NewProvisionerServer) ∧
    ProvisionerRevokeBucketAccess NewProvisionerServer
        { bucketId := IdString.wellFormed 3, accountId := IdString.wellFormed 9 } =
      (Except.error errNoSuchBucket, NewProvisionerServer) := by
  refine ⟨rfl, ?_, ?_⟩
  · exact (grantRevoke_notFound NewProvisionerServer 3 rfl).1 _ rfl
  · exact (grantRevoke_notFound NewProvisionerServer 3 rfl).2 _ 9 rfl rfl

/-- C9: grant scoping — account namespaces are per bucket.  For two distinct
live buckets, granting (or revoking) under the first leaves the second's
record, and hence its account-grant indices, unchanged; and granting the same
account name under both (fresh in each) succeeds with distinct grant
identifiers, after which both grants are live under their own buckets. -/
theorem grant_scoping (s : ServerState) (i1 i2 : UUID) (b1 b2 : Bucket)
    (req1 req2 : GrantBucketAccessRequest) (A : String)
    (hw : Wf s) (hne : i1 ≠ i2)
    (hid1 : uuidParse req1.bucketId = some i1) (hid2 : uuidParse req2.bucketId = some i2)
    (hb1 : alook s.bucketsByUUID i1 = some b1) (hb2 : alook s.bucketsByUUID i2 = some b2)
    (hA1 : req1.accountName = A) (hA2 : req2.accountName = A)
    (habs1 : alook b1.accountsByName A = none) :
    alook (ProvisionerGrantBucketAccess s req1).2.bucketsByUUID i2 = some b2 ∧
    (∀ rreq : RevokeBucketAccessRequest, uuidParse rreq.bucketId = some i1 →
      alook (ProvisionerRevokeBucketAccess s rreq).2.bucketsByUUID i2 = some b2) ∧
    (alook b2.accountsByName A = none →
      ∃ r1 r2 s1 s2,
        ProvisionerGrantBucketAccess s req1 = (Except.ok r1, s1) ∧
        ProvisionerGrantBucketAccess s1 req2 = (Except.ok r2, s2) ∧
        r1.accountId ≠ r2.accountId ∧
        (∃ b1x a1, alook s2.bucketsByUUID i1 = some b1x ∧
          alook b1x.accountsByName A = some a1 ∧ a1.accountId = r1.accountId) ∧
        (∃ b2x a2, alook s2.bucketsByUUID i2 = some b2x ∧
          alook b2x.accountsByName A = some a2 ∧ a2.accountId = r2.accountId)) := by
  have hb1id : b1.bucketId = i1 := (hw.byUUID i1 b1 hb1).1
  have hb2id : b2.bucketId = i2 := (hw.byUUID i2 b2 hb2).1
  refine ⟨grant_preserves_other s req1 hw hid1 (Ne.symm hne) hb2,
    fun rreq hr => revoke_preserves_other s rreq hw hr (Ne.symm hne) hb2, ?_⟩
  intro habs2
  have habs1x : alook b1.accountsByName req1.accountName = none := by
    rw [hA1]
    exact habs1
  have habs2x : alook b2.accountsByName req2.accountName = none := by
    rw [hA2]
    exact habs2
  have e1 := grantAccess_fresh s req1 i1 b1 hid1 hb1 habs1x
  have hs1b2 : alook ({ updateBucket s b1 (bucketWithAccount b1 (freshAccount s req1)) with
      nextUUID := s.nextUUID + 1 } : ServerState).bucketsByUUID i2 = some b2 := by
    dsimp only [updateBucket]
    rw [hb1id, alook_aset_ne _ _ (Ne.symm hne)]
    exact hb2
  have e2 := grantAccess_fresh _ req2 i2 b2 hid2 hs1b2 habs2x
  refine ⟨_, _, _, _, e1, e2, ?_, ?_, ?_⟩
  · show s.nextUUID ≠ s.nextUUID + 1
    exact Nat.ne_of_lt (Nat.lt_succ_self _)
  · refine ⟨bucketWithAccount b1 (freshAccount s req1), freshAccount s req1, ?_, ?_, rfl⟩
    · dsimp only [updateBucket]
      rw [hb2id, alook_aset_ne _ _ hne]
      rw [hb1id, alook_aset_self]
    · dsimp only [bucketWithAccount, freshAccount]
      rw [hA1, alook_aset_self]
  · refine ⟨bucketWithAccount b2 (freshAccount
        ({ updateBucket s b1 (bucketWithAccount b1 (freshAccount s req1)) with
          nextUUID := s.nextUUID + 1 } : ServerState) req2),
      freshAccount
        ({ updateBucket s b1 (bucketWithAccount b1 (freshAccount s req1)) with
          nextUUID := s.nextUUID + 1 } : ServerState) req2, ?_, ?_, rfl⟩
    · dsimp only [updateBucket]
      rw [hb2id, alook_aset_self]
    · dsimp only [bucketWithAccount, freshAccount]
      rw [hA2, alook_aset_self]

/-- C9 witness: with buckets "photos" (identifier 0) and "bar" (identifier 1)
both live, granting "alice" under each succeeds with distinct identifiers and
neither grant disturbs the other bucket's record. -/
theorem grant_scoping_witness :
    (0 : UUID) ≠ 1 ∧
    Wf wStateTwo ∧
    alook wStateTwo.bucketsByUUID 0 = some wBucketPhotos ∧
    alook wStateTwo.bucketsByUUID 1 = some wBucketBar ∧
    alook wBucketPhotos.accountsByName "alice" = none ∧
    (alook (ProvisionerGrantBucketAccess wStateTwo wGrantAliceB1).2.bucketsByUUID 1 =
        some wBucketBar ∧
      (∀ rreq : RevokeBucketAccessRequest, uuidParse rreq.bucketId = some 0 →
        alook (ProvisionerRevokeBucketAccess wStateTwo rreq).2.bucketsByUUID 1 =
          some wBucketBar) ∧
      (alook wBucketBar.accountsByName "alice" = none →
        ∃ r1 r2 s1 s2,
          ProvisionerGrantBucketAccess wStateTwo wGrantAliceB1 = (Except.ok r1, s1) ∧
          ProvisionerGrantBucketAccess s1 wGrantAliceB2 = (Except.ok r2, s2) ∧
          r1.accountId ≠ r2.accountId ∧
          (∃ b1x a1, alook s2.bucketsByUUID 0 = some b1x ∧
            alook b1x.accountsByName "alice" = some a1 ∧ a1.accountId = r1.accountId) ∧
          (∃ b2x a2, alook s2.bucketsByUUID 1 = some b2x ∧
            alook b2x.accountsByName "alice" = some a2 ∧ a2.accountId = r2.accountId))) := by
  have hw0 : Wf wStatePhotos := wf_createBucket NewProvisionerServer wReqPhotos wf_new
  have hw : Wf wStateTwo := wf_createBucket wStatePhotos wReqBar hw0
  exact ⟨by decide, hw, rfl, rfl, rfl,
    grant_scoping wStateTwo 0 1 wBucketPhotos wBucketBar wGrantAliceB1 wGrantAliceB2 "alice"
      hw (by decide) rfl rfl rfl rfl rfl rfl rfl⟩

end Registry

/-- C1 (code bug): `DriverCreateBucket`'s own documentation and the spec say an
existing bucket's recorded parameters are compared with the supplied ones and a
mismatch fails with AlreadyExists.  In the default configuration (no BucketID
override, no injected error) the code instead returns success with the existing
bucket's identifier and never consults `IsBucketEqual`: `getName` returns the
flag `true` for a NON-overridden name, and the call site binds that flag to
`overridden` and skips validation when it is set.  Here the backend's stored
parameters map k to v1 and the request maps k to v2 — different under both of
the repository's map-equality notions — yet the call succeeds and the backend
is left unchanged. -/
theorem driverCreateBucket_skips_conflict_check :
    Driver.getName Driver.wDriverCfg "photos" = ("photos", true) ∧
    (Driver.DriverCreateBucket Driver.wDriverCfg Driver.wDriverClient Driver.wDriverReq).1 =
      Except.ok { bucketId := "photos", bucketInfoSet := false } ∧
    (Driver.DriverCreateBucket Driver.wDriverCfg Driver.wDriverClient Driver.wDriverReq).2 =
      Driver.wDriverClient ∧
    Driver.goMapsEqual (some [("k", "v1")]) (some [("k", "v2")]) = false ∧
    deepEqual (some [("k", "v1")]) (some [("k", "v2")]) = false :=
  ⟨rfl, rfl, rfl, by decide, by decide⟩


end CosiSample
